import Mathlib

/-!
Verification of the OSCR combat-detection and player-aggregation core
(`src/OSCR/combat.py`, `src/OSCR/iofunc.py`) against its specification.

Shallow embedding conventions:
* Python numbers (floats and ints flowing through the aggregation code) are
  modelled as `ℚ`; required death counts are `ℤ`.
* Python dicts (insertion ordered) are association lists `List (String × α)`
  with `assocGet` / `dictInsert` mirroring `d.get(k)` / `d[k] = v`.
* The modules `datamodels`, `detection` and `utilities` imported by
  `combat.py` are not part of the two source files; their record shapes are
  modelled from the spec, and the reference tables and the entity-name
  canonicalizer are taken as parameters (universally quantified).
* Fallible code returns `Except String α`.
-/

/-- `d.get(k)` on an insertion-ordered dict modelled as an association list. -/
def assocGet {α : Type} (l : List (String × α)) (k : String) : Option α :=
  (l.find? (fun p => p.1 == k)).map (·.2)

/-- `d[k] = v` on a dict: replace in place if the key exists, else append. -/
def dictInsert {α : Type} : List (String × α) → String → α → List (String × α)
  | [], k, v => [(k, v)]
  | (k', v') :: rest, k, v =>
      if k' = k then (k, v) :: rest else (k', v') :: dictInsert rest k v

/-- Modelled from the spec: `datamodels.CritterMeta` (spec §3 CritterAggregate):
canonical name, count of distinct instances, per-instance hull-damage samples.
(The `deaths` field of the spec's aggregate is unused by the code under
verification and omitted.) -/
structure CritterMeta where
  name : String
  count : ℕ
  hull_values : List ℚ
deriving DecidableEq

/-- Modelled from the spec: `CritterMeta.add_critter` accumulates a repeated
instance of the same canonical name (spec §3: "entries accumulate across
repeated instances"). -/
def CritterMeta.add_critter (m : CritterMeta) (hull : ℚ) : CritterMeta :=
  { m with count := m.count + 1, hull_values := m.hull_values ++ [hull] }

/-- Modelled from the spec: `datamodels.DetectionInfo` (spec §3 DetectionResult)
with positional field order `success, category, entities, expected, actual,
step, map, difficulty` matching the constructor calls in `combat.py`. -/
structure DetectionInfo where
  success : Bool
  category : Option String := none
  entities : List String := []
  expected : Option ℚ := none
  actual : Option ℚ := none
  step : Option String := none
  map : Option String := none
  difficulty : Option String := none
deriving DecidableEq

/-- Insertion sort step used by `sortQ`. -/
def insertSorted (x : ℚ) : List ℚ → List ℚ
  | [] => [x]
  | y :: r => if x ≤ y then x :: y :: r else y :: insertSorted x r

/-- Ascending sort of the samples (numpy sorts before interpolating). -/
def sortQ (l : List ℚ) : List ℚ := l.foldr insertSorted []

/-- `numpy.percentile(values, 50)` with the default linear interpolation:
the middle element for odd length, the mean of the two middle elements for
even length.  (numpy raises on an empty array; `0` is a junk value for that
case, never relied upon by a theorem.) -/
def percentile50 (l : List ℚ) : ℚ :=
  let s := sortQ l
  let n := s.length
  if n = 0 then 0
  else if n % 2 = 1 then s.getD (n / 2) 0
  else (s.getD (n / 2 - 1) 0 + s.getD (n / 2) 0) / 2

/-- The per-entity validity test of `check_difficulty_deaths`
(`combat.py` lines 26-29): a positive required count demands an exact match,
otherwise the observed count must be nonzero. -/
def deathEntityPass (required : ℤ) (count : ℕ) : Bool :=
  if 0 < required then decide (required = (count : ℤ)) else decide (count ≠ 0)

/-- Loop body of `check_difficulty_deaths` (`combat.py` lines 21-33):
`some r` is an early `return r`, `none` means the loop ran to completion. -/
def checkDeathsLoop (cm : List (String × CritterMeta)) :
    List (String × ℤ) → Option DetectionInfo
  | [] => none
  | (entity_name, required_death_count) :: rest =>
      match assocGet cm entity_name with
      | none =>
          some ⟨false, some "difficulty", [entity_name], none, none,
                some "existence", none, none⟩
      | some entity_metadata =>
          if deathEntityPass required_death_count entity_metadata.count then
            checkDeathsLoop cm rest
          else
            some ⟨false, some "difficulty", [entity_name],
                  some (required_death_count : ℚ), some (entity_metadata.count : ℚ),
                  some "deaths", none, none⟩

/-- `check_difficulty_deaths` (`combat.py` lines 13-34). -/
def check_difficulty_deaths (difficulty_data : List (String × ℤ))
    (combat_meta : List (String × CritterMeta)) : DetectionInfo :=
  match checkDeathsLoop combat_meta difficulty_data with
  | some r => r
  | none =>
      ⟨true, some "difficulty", difficulty_data.map (·.1), none, none,
       some "deaths", none, none⟩

/-- The per-entity validity test of `check_difficulty_damage`
(`combat.py` lines 53-55): the median of the hull samples must strictly
exceed the threshold shrunk by the fixed lower variance `0.20`. -/
def damageEntityPass (hull_value : ℚ) (samples : List ℚ) : Bool :=
  decide (hull_value * (1 - 1/5) < percentile50 samples)

/-- Loop body of `check_difficulty_damage` (`combat.py` lines 48-57). -/
def checkDamageLoop (cm : List (String × CritterMeta)) :
    List (String × ℚ) → Option DetectionInfo
  | [] => none
  | (entity_name, hull_value) :: rest =>
      match assocGet cm entity_name with
      | none =>
          some ⟨false, some "difficulty", [], none, none, some "damage",
                none, none⟩
      | some entity_metadata =>
          if damageEntityPass hull_value entity_metadata.hull_values then
            checkDamageLoop cm rest
          else
            some ⟨false, some "difficulty", [entity_name],
                  some (hull_value * (1 - 1/5)),
                  some (percentile50 entity_metadata.hull_values),
                  some "damage", none, none⟩

/-- `check_difficulty_damage` (`combat.py` lines 37-58). -/
def check_difficulty_damage (difficulty_data : List (String × ℚ))
    (combat_meta : List (String × CritterMeta)) : DetectionInfo :=
  match checkDamageLoop combat_meta difficulty_data with
  | some r => r
  | none =>
      ⟨true, some "difficulty", difficulty_data.map (·.1), none, none,
       some "damage", none, none⟩

/-- An entity requirement `(name, required)` passes against metadata `cm`:
the entity is present and its observed count satisfies `deathEntityPass`. -/
def deathReqPass (cm : List (String × CritterMeta)) (p : String × ℤ) : Prop :=
  ∃ md, assocGet cm p.1 = some md ∧ deathEntityPass p.2 md.count = true

instance (cm : List (String × CritterMeta)) (p : String × ℤ) :
    Decidable (deathReqPass cm p) := by
  unfold deathReqPass
  cases assocGet cm p.1 with
  | none => exact isFalse (by simp)
  | some md => exact decidable_of_iff (deathEntityPass p.2 md.count = true) (by simp)

/-- A hull requirement `(name, threshold)` passes against metadata `cm`. -/
def damageReqPass (cm : List (String × CritterMeta)) (p : String × ℚ) : Prop :=
  ∃ md, assocGet cm p.1 = some md ∧ damageEntityPass p.2 md.hull_values = true

instance (cm : List (String × CritterMeta)) (p : String × ℚ) :
    Decidable (damageReqPass cm p) := by
  unfold damageReqPass
  cases assocGet cm p.1 with
  | none => exact isFalse (by simp)
  | some md =>
      exact decidable_of_iff (damageEntityPass p.2 md.hull_values = true) (by simp)

lemma checkDeathsLoop_none_iff (cm : List (String × CritterMeta)) :
    ∀ dd : List (String × ℤ),
      checkDeathsLoop cm dd = none ↔ ∀ p ∈ dd, deathReqPass cm p := by
  intro dd
  induction dd with
  | nil => simp [checkDeathsLoop]
  | cons q rest ih =>
      obtain ⟨name, req⟩ := q
      simp only [checkDeathsLoop]
      cases hq : assocGet cm name with
      | none =>
          simp only [hq]
          constructor
          · intro h; cases h
          · intro h
            exact absurd (h (name, req) (List.mem_cons_self _ _))
              (by simp [deathReqPass, hq])
      | some md =>
          simp only [hq]
          by_cases hp : deathEntityPass req md.count = true
          · simp only [if_pos hp, ih]
            constructor
            · intro h p hmem
              rcases List.mem_cons.mp hmem with h1 | h2
              · subst h1; exact ⟨md, hq, hp⟩
              · exact h p h2
            · intro h p hmem; exact h p (List.mem_cons_of_mem _ hmem)
          · simp only [if_neg hp]
            constructor
            · intro h; cases h
            · intro h
              rcases h (name, req) (List.mem_cons_self _ _) with ⟨md2, hq2, hp2⟩
              rw [hq] at hq2
              cases hq2
              exact absurd hp2 hp

lemma checkDeathsLoop_some_fail (cm : List (String × CritterMeta)) :
    ∀ dd r, checkDeathsLoop cm dd = some r → r.success = false := by
  intro dd
  induction dd with
  | nil => intro r h; cases h
  | cons q rest ih =>
      intro r h
      obtain ⟨name, req⟩ := q
      simp only [checkDeathsLoop] at h
      cases hq : assocGet cm name with
      | none => simp only [hq] at h; cases h; rfl
      | some md =>
          simp only [hq] at h
          by_cases hp : deathEntityPass req md.count = true
          · rw [if_pos hp] at h; exact ih r h
          · rw [if_neg hp] at h; cases h; rfl

lemma checkDamageLoop_none_iff (cm : List (String × CritterMeta)) :
    ∀ dd : List (String × ℚ),
      checkDamageLoop cm dd = none ↔ ∀ p ∈ dd, damageReqPass cm p := by
  intro dd
  induction dd with
  | nil => simp [checkDamageLoop]
  | cons q rest ih =>
      obtain ⟨name, hv⟩ := q
      simp only [checkDamageLoop]
      cases hq : assocGet cm name with
      | none =>
          simp only [hq]
          constructor
          · intro h; cases h
          · intro h
            exact absurd (h (name, hv) (List.mem_cons_self _ _))
              (by simp [damageReqPass, hq])
      | some md =>
          simp only [hq]
          by_cases hp : damageEntityPass hv md.hull_values = true
          · simp only [if_pos hp, ih]
            constructor
            · intro h p hmem
              rcases List.mem_cons.mp hmem with h1 | h2
              · subst h1; exact ⟨md, hq, hp⟩
              · exact h p h2
            · intro h p hmem; exact h p (List.mem_cons_of_mem _ hmem)
          · simp only [if_neg hp]
            constructor
            · intro h; cases h
            · intro h
              rcases h (name, hv) (List.mem_cons_self _ _) with ⟨md2, hq2, hp2⟩
              rw [hq] at hq2
              cases hq2
              exact absurd hp2 hp

lemma checkDamageLoop_some_fail (cm : List (String × CritterMeta)) :
    ∀ dd r, checkDamageLoop cm dd = some r → r.success = false := by
  intro dd
  induction dd with
  | nil => intro r h; cases h
  | cons q rest ih =>
      intro r h
      obtain ⟨name, hv⟩ := q
      simp only [checkDamageLoop] at h
      cases hq : assocGet cm name with
      | none => simp only [hq] at h; cases h; rfl
      | some md =>
          simp only [hq] at h
          by_cases hp : damageEntityPass hv md.hull_values = true
          · rw [if_pos hp] at h; exact ih r h
          · rw [if_neg hp] at h; cases h; rfl

/-- Claim C1: `check_difficulty_deaths` succeeds exactly when every required
entity is present and passes; a missing required entity (after any prefix of
passing requirements) yields an immediate failure with `success = false` and
`step = "existence"` whose value does not depend on the remaining
requirements (short-circuit); a positive required count `r` passes exactly
the observed count `r` (so `r-1` and `r+1` fail), and a required count of `0`
passes exactly the nonzero observed counts. -/
theorem check_difficulty_deaths_spec :
    (∀ (dd : List (String × ℤ)) (cm : List (String × CritterMeta)),
      (check_difficulty_deaths dd cm).success = true ↔ ∀ p ∈ dd, deathReqPass cm p)
    ∧ (∀ (pre : List (String × ℤ)) (name : String) (req : ℤ)
        (rest : List (String × ℤ)) (cm : List (String × CritterMeta)),
        (∀ p ∈ pre, deathReqPass cm p) → assocGet cm name = none →
        check_difficulty_deaths (pre ++ (name, req) :: rest) cm
          = ⟨false, some "difficulty", [name], none, none, some "existence",
             none, none⟩)
    ∧ (∀ r : ℤ, 0 < r → ∀ count : ℕ,
        (deathEntityPass r count = true ↔ (count : ℤ) = r))
    ∧ (∀ count : ℕ, (deathEntityPass 0 count = true ↔ count ≠ 0)) := by
  refine ⟨?_, ?_, ?_, ?_⟩
  · intro dd cm
    unfold check_difficulty_deaths
    cases hl : checkDeathsLoop cm dd with
    | none => simpa using (checkDeathsLoop_none_iff cm dd).mp hl
    | some r =>
        have hf := checkDeathsLoop_some_fail cm dd r hl
        simp only [hf]
        constructor
        · intro h; cases h
        · intro h
          have : checkDeathsLoop cm dd = none :=
            (checkDeathsLoop_none_iff cm dd).mpr h
          rw [hl] at this; cases this
  · intro pre name req rest cm hpre hmiss
    have hloop : ∀ pre2 : List (String × ℤ), (∀ p ∈ pre2, deathReqPass cm p) →
        checkDeathsLoop cm (pre2 ++ (name, req) :: rest)
          = some ⟨false, some "difficulty", [name], none, none, some "existence",
                  none, none⟩ := by
      intro pre2
      induction pre2 with
      | nil => intro _; simp [checkDeathsLoop, hmiss]
      | cons q pr ih =>
          intro hall
          obtain ⟨qn, qr⟩ := q
          rcases hall (qn, qr) (List.mem_cons_self _ _) with ⟨md, hget, hpass⟩
          simp only [List.cons_append, checkDeathsLoop, hget, if_pos hpass]
          exact ih (fun p hp => hall p (List.mem_cons_of_mem _ hp))
    unfold check_difficulty_deaths
    rw [hloop pre hpre]
  · intro r hr count
    simp [deathEntityPass, if_pos hr, eq_comm]
  · intro count
    simp [deathEntityPass]

/-- Claim C1 witness: a required entity missing from the metadata produces
the immediate existence failure, and the exact-count / nonzero-count criteria
evaluate as claimed at concrete counts. -/
theorem check_difficulty_deaths_spec_witness :
    check_difficulty_deaths [("Borg Queen", 2)] []
      = ⟨false, some "difficulty", ["Borg Queen"], none, none, some "existence",
         none, none⟩
    ∧ deathEntityPass 2 2 = true ∧ deathEntityPass 2 1 = false
    ∧ deathEntityPass 2 3 = false
    ∧ deathEntityPass 0 0 = false ∧ deathEntityPass 0 5 = true := by
  refine ⟨?_, ?_, ?_, ?_, ?_, ?_⟩
  · exact check_difficulty_deaths_spec.2.1 [] "Borg Queen" 2 [] []
      (by intro p hp; cases hp) (by rfl)
  · exact (check_difficulty_deaths_spec.2.2.1 2 (by decide) 2).mpr (by decide)
  · have h := (check_difficulty_deaths_spec.2.2.1 2 (by decide) 1)
    revert h; decide
  · have h := (check_difficulty_deaths_spec.2.2.1 2 (by decide) 3)
    revert h; decide
  · have h := (check_difficulty_deaths_spec.2.2.2 0)
    revert h; decide
  · exact (check_difficulty_deaths_spec.2.2.2 5).mpr (by decide)

/-- Claim C2: `check_difficulty_damage` succeeds exactly when every required
entity is present and its hull-sample median strictly exceeds `0.8` times the
threshold; a missing required entity (after any prefix of passing
requirements) yields an immediate failure independent of the remaining
requirements; a median exactly equal to `0.8` times the threshold fails. -/
theorem check_difficulty_damage_spec :
    (∀ (dd : List (String × ℚ)) (cm : List (String × CritterMeta)),
      (check_difficulty_damage dd cm).success = true ↔ ∀ p ∈ dd, damageReqPass cm p)
    ∧ (∀ (pre : List (String × ℚ)) (name : String) (hv : ℚ)
        (rest : List (String × ℚ)) (cm : List (String × CritterMeta)),
        (∀ p ∈ pre, damageReqPass cm p) → assocGet cm name = none →
        check_difficulty_damage (pre ++ (name, hv) :: rest) cm
          = ⟨false, some "difficulty", [], none, none, some "damage", none, none⟩)
    ∧ (∀ (t : ℚ) (samples : List ℚ),
        (damageEntityPass t samples = true ↔ t * (4/5) < percentile50 samples))
    ∧ (∀ (t : ℚ) (samples : List ℚ),
        percentile50 samples = t * (4/5) → damageEntityPass t samples = false) := by
  refine ⟨?_, ?_, ?_, ?_⟩
  · intro dd cm
    unfold check_difficulty_damage
    cases hl : checkDamageLoop cm dd with
    | none => simpa using (checkDamageLoop_none_iff cm dd).mp hl
    | some r =>
        have hf := checkDamageLoop_some_fail cm dd r hl
        simp only [hf]
        constructor
        · intro h; cases h
        · intro h
          have : checkDamageLoop cm dd = none :=
            (checkDamageLoop_none_iff cm dd).mpr h
          rw [hl] at this; cases this
  · intro pre name hv rest cm hpre hmiss
    have hloop : ∀ pre2 : List (String × ℚ), (∀ p ∈ pre2, damageReqPass cm p) →
        checkDamageLoop cm (pre2 ++ (name, hv) :: rest)
          = some ⟨false, some "difficulty", [], none, none, some "damage",
                  none, none⟩ := by
      intro pre2
      induction pre2 with
      | nil => intro _; simp [checkDamageLoop, hmiss]
      | cons q pr ih =>
          intro hall
          obtain ⟨qn, qv⟩ := q
          rcases hall (qn, qv) (List.mem_cons_self _ _) with ⟨md, hget, hpass⟩
          simp only [List.cons_append, checkDamageLoop, hget, if_pos hpass]
          exact ih (fun p hp => hall p (List.mem_cons_of_mem _ hp))
    unfold check_difficulty_damage
    rw [hloop pre hpre]
  · intro t samples
    constructor
    · intro h
      have := of_decide_eq_true h
      linarith [this]
    · intro h
      apply decide_eq_true
      have : t * (1 - 1/5) = t * (4/5) := by ring
      rw [this]
      exact h
  · intro t samples h
    apply decide_eq_false
    intro hc
    have : t * (1 - 1/5) = t * (4/5) := by ring
    rw [this, h] at hc
    exact lt_irrefl _ hc

/-- Claim C2 witness: a missing entity fails immediately; a median exactly at
`0.8` times the threshold fails while a strictly larger one passes. -/
theorem check_difficulty_damage_spec_witness :
    check_difficulty_damage [("Tactical Cube", 100)] []
      = ⟨false, some "difficulty", [], none, none, some "damage", none, none⟩
    ∧ damageEntityPass 100 [80] = false
    ∧ damageEntityPass 100 [81] = true := by
  refine ⟨?_, ?_, ?_⟩
  · exact check_difficulty_damage_spec.2.1 [] "Tactical Cube" 100 [] []
      (by intro p hp; cases hp) (by rfl)
  · exact check_difficulty_damage_spec.2.2.2 100 [80] (by norm_num [percentile50, sortQ, insertSorted])
  · exact (check_difficulty_damage_spec.2.2.1 100 [81]).mpr
      (by norm_num [percentile50, sortQ, insertSorted])

/-- A non-player row of the damage-received tree (`damage_in._npc._children`):
`raw_id` is `entity.data[0][2]`, `hull_damage` is `entity.data[2]`. -/
structure NpcEntity where
  raw_id : String
  hull_damage : ℚ
deriving DecidableEq

/-- A player row of an analysis tree: `d0` is the `(name, handle)` identity
pair `data[0]`; `dN` is the positional numeric field `data[N]` read by
`create_overview` (spec §6 row layout). -/
structure Row where
  d0 : String × String
  d1 : ℚ := 0
  d2 : ℚ := 0
  d3 : ℚ := 0
  d4 : ℚ := 0
  d5 : ℚ := 0
  d8 : ℚ := 0
  d9 : ℚ := 0
  d10 : ℚ := 0
  d11 : ℚ := 0
  d13 : ℚ := 0
  d15 : ℚ := 0
  d19 : ℚ := 0
  d20 : ℚ := 0
deriving DecidableEq

/-- Modelled from the spec: `datamodels.OverviewTableRow` (spec §3
PlayerStats); numeric fields default to zero, graph fields and event list to
empty/absent ("fields stay at their zero default"). -/
structure OverviewTableRow where
  name : String
  handle : String
  DPS : ℚ := 0
  combat_time : ℚ := 0
  combat_time_share : ℚ := 0
  total_damage : ℚ := 0
  debuff : ℚ := 0
  max_one_hit : ℚ := 0
  crit_chance : ℚ := 0
  total_attacks : ℚ := 0
  hull_attacks : ℚ := 0
  crit_num : ℚ := 0
  misses : ℚ := 0
  deaths : ℚ := 0
  total_damage_taken : ℚ := 0
  total_hull_damage_taken : ℚ := 0
  total_shield_damage_taken : ℚ := 0
  attacks_in_num : ℚ := 0
  total_heals : ℚ := 0
  heal_crit_chance : ℚ := 0
  heal_crit_num : ℚ := 0
  heal_num : ℚ := 0
  heal_share : ℚ := 0
  attacks_in_share : ℚ := 0
  taken_damage_share : ℚ := 0
  damage_share : ℚ := 0
  base_damage : ℚ := 0
  combat_interval : Option (ℚ × ℚ) := none
  events : Option (List String) := none
  build : String := "Unknown"
  graph_time : List ℚ := []
  DMG_graph_data : List ℚ := []
  DPS_graph_data : List ℚ := []
deriving DecidableEq

/-- A critter entry of `self.critters` (shape used only by
`analyze_critters`, which is outside the claims; carried for the frame
property of `detect_map`). -/
structure CritterEntity where
  deaths : ℚ := 0
  total_hull_damage_taken : ℚ := 0
deriving DecidableEq

/-- The `Combat` record (`combat.py` `__init__`): the four analysis trees are
flattened to the projections the verified code reads (`_player._children`
rows and `damage_in._npc._children` entities), and the `meta` dict is split
into its three keys. -/
structure Combat where
  log_data : List String := []
  id : ℤ := -1
  map : Option String := none
  difficulty : Option String := none
  start_time : Option ℚ := none
  end_time : Option ℚ := none
  file_pos : Option ℕ × Option ℕ := (none, none)
  log_file : String := ""
  meta_log_duration : Option ℚ := none
  meta_player_duration : Option ℚ := none
  detection_info : Option (List DetectionInfo) := none
  players : List (String × OverviewTableRow) := []
  critters : List (String × CritterEntity) := []
  critter_meta : List (String × CritterMeta) := []
  graph_resolution : ℚ := 1/5
  overview_graphs : List (String × List ℚ) := []
  damage_out_players : List Row := []
  damage_in_players : List Row := []
  damage_in_npc : List NpcEntity := []
  heals_out_players : List Row := []
deriving DecidableEq

/-- External context of `detect_map`: the entity-name canonicalizer
(`utilities.get_entity_name`) and the three static reference tables of
`detection.Detection`, all external to the two source files and therefore
taken as parameters.  `existence` maps an entity name to its
`(map, difficulty)` entry; the two difficulty tables map a map name to an
ordered list of `(difficulty, entity requirements)`. -/
structure DetectCtx where
  getName : String → String
  existence : List (String × String × String)
  deaths_table : List (String × List (String × List (String × ℤ)))
  hulls_table : List (String × List (String × List (String × ℚ)))

/-- Lookup in the existence table (total: the scan only queries keys known to
be present, so the junk default is never reached on the verified paths). -/
def existGet (ctx : DetectCtx) (k : String) : String × String :=
  ((ctx.existence.find? (fun p => p.1 == k)).map (·.2)).getD ("", "Any")

/-- The critter-metadata accumulation of `detect_map` (`combat.py` lines
345-351): canonicalize each non-player entity of the damage-received tree and
accumulate count and hull samples per canonical name, in insertion order. -/
def build_critters (getName : String → String) (ents : List NpcEntity) :
    List (String × CritterMeta) :=
  ents.foldl (fun acc e =>
    let entity_name := getName e.raw_id
    match assocGet acc entity_name with
    | some m => dictInsert acc entity_name (m.add_critter e.hull_damage)
    | none => acc ++ [(entity_name, CritterMeta.mk entity_name 1 [e.hull_damage])]) []

/-- The candidate identifiers `critters.keys() & MAP_IDENTIFIERS_EXISTENCE.keys()`
(`combat.py` line 354); the Python set intersection is realized in the
deterministic insertion order of the critter dict. -/
def detectCandidates (ctx : DetectCtx) (c : Combat) : List String :=
  ((build_critters ctx.getName c.damage_in_npc).map (·.1)).filter
    (fun k => (ctx.existence.map (·.1)).contains k)

/-- The death-count stage of `detect_map` (`combat.py` lines 374-378): each
level's check result has the level name attached and is appended; a passing
check (truthiness of `DetectionInfo` is its `success` field, spec §3/§9) sets
the difficulty. -/
def deathsStage (tbl : List (String × List (String × ℤ)))
    (critters : List (String × CritterMeta)) (st : Combat × List DetectionInfo) :
    Combat × List DetectionInfo :=
  tbl.foldl (fun st entry =>
    let detection_meta := check_difficulty_deaths entry.2 critters
    let c := if detection_meta.success then { st.1 with difficulty := some entry.1 }
             else st.1
    (c, st.2 ++ [{ detection_meta with difficulty := some entry.1 }])) st

/-- The hull-damage stage of `detect_map` (`combat.py` lines 380-384). -/
def hullsStage (tbl : List (String × List (String × ℚ)))
    (critters : List (String × CritterMeta)) (st : Combat × List DetectionInfo) :
    Combat × List DetectionInfo :=
  tbl.foldl (fun st entry =>
    let detection_meta := check_difficulty_damage entry.2 critters
    let c := if detection_meta.success then { st.1 with difficulty := some entry.1 }
             else st.1
    (c, st.2 ++ [{ detection_meta with difficulty := some entry.1 }])) st

/-- The two difficulty stages of `detect_map` in sequence (`combat.py` lines
374-384), each looking up its table under the current map. -/
def detectStages (ctx : DetectCtx) (critters : List (String × CritterMeta))
    (st : Combat × List DetectionInfo) : Combat × List DetectionInfo :=
  hullsStage
    ((assocGet ctx.hulls_table
      ((deathsStage ((assocGet ctx.deaths_table (st.1.map.getD "")).getD [])
        critters st).1.map.getD "")).getD [])
    critters
    (deathsStage ((assocGet ctx.deaths_table (st.1.map.getD "")).getD [])
      critters st)

/-- Processing after the candidate scan falls through (`combat.py` lines
371-385): append the successful map-level result (built from the leaked last
loop identifier and the current map), then run both difficulty stages and
store the accumulated detection info. -/
def detectTail (ctx : DetectCtx) (critters : List (String × CritterMeta))
    (c : Combat) (identificator : String) : Combat :=
  { (detectStages ctx critters (c, [DetectionInfo.mk true (some "map")
      [identificator] none none (some "existence") c.map none])).1 with
    detection_info := some (detectStages ctx critters (c, [DetectionInfo.mk true
      (some "map") [identificator] none none (some "existence") c.map none])).2 }

/-- The candidate scan of `detect_map` (`combat.py` lines 361-370): the first
candidate whose existence entry fixes a difficulty ends detection with a
single successful `both` result; otherwise the map is recorded and scanning
continues, ending in `detectTail`. -/
def detectScan (ctx : DetectCtx) (critters : List (String × CritterMeta)) :
    Combat → String → List String → Combat
  | c, identificator, [] =>
      let map_data := existGet ctx identificator
      if map_data.2 ≠ "Any" then
        { c with map := some map_data.1, difficulty := some map_data.2,
                 detection_info := some [⟨true, some "both", [identificator],
                   none, none, some "existence", some map_data.1,
                   some map_data.2⟩] }
      else
        detectTail ctx critters { c with map := some map_data.1 } identificator
  | c, identificator, i :: r =>
      let map_data := existGet ctx identificator
      if map_data.2 ≠ "Any" then
        { c with map := some map_data.1, difficulty := some map_data.2,
                 detection_info := some [⟨true, some "both", [identificator],
                   none, none, some "existence", some map_data.1,
                   some map_data.2⟩] }
      else
        detectScan ctx critters { c with map := some map_data.1 } i r

/-- `Combat.detect_map` (`combat.py` lines 336-385). -/
def detect_map (ctx : DetectCtx) (c : Combat) : Combat :=
  let c0 := { c with map := some "" }
  let critters := build_critters ctx.getName c.damage_in_npc
  match detectCandidates ctx c with
  | [] =>
      { c0 with
        map := some "Combat"
        difficulty := none
        detection_info := some [⟨false, none, [], none, none,
          some "existence", none, none⟩] }
  | i :: r => detectScan ctx critters c0 i r

lemma detectScan_find_fixed (ctx : DetectCtx) (critters : List (String × CritterMeta)) :
    ∀ (rest : List String) (c : Combat) (ident i : String),
      (ident :: rest).find? (fun n => decide ((existGet ctx n).2 ≠ "Any")) = some i →
      detectScan ctx critters c ident rest
        = { c with
              map := some (existGet ctx i).1
              difficulty := some (existGet ctx i).2
              detection_info := some [⟨true, some "both", [i], none, none,
                some "existence", some (existGet ctx i).1,
                some (existGet ctx i).2⟩] } := by
  intro rest
  induction rest with
  | nil =>
      intro c ident i hf
      by_cases hp : (existGet ctx ident).2 ≠ "Any"
      · have hpd : decide ((existGet ctx ident).2 ≠ "Any") = true := decide_eq_true hp
        simp only [List.find?, hpd, cond_true, Option.some.injEq] at hf
        subst hf
        simp only [detectScan, if_pos hp]
      · have hpd : decide ((existGet ctx ident).2 ≠ "Any") = false := decide_eq_false hp
        simp only [List.find?, hpd, cond_false] at hf
        cases hf
  | cons j r ih =>
      intro c ident i hf
      by_cases hp : (existGet ctx ident).2 ≠ "Any"
      · have hpd : decide ((existGet ctx ident).2 ≠ "Any") = true := decide_eq_true hp
        simp only [List.find?, hpd, cond_true, Option.some.injEq] at hf
        subst hf
        simp only [detectScan, if_pos hp]
      · have hpd : decide ((existGet ctx ident).2 ≠ "Any") = false := decide_eq_false hp
        simp only [List.find?, hpd, cond_false] at hf
        simp only [detectScan, if_neg hp]
        rw [ih _ j i hf]

/-- Claim C3: when no canonical entity name of the damage-received tree
occurs in the existence table, `detect_map` sets the sentinel map
`"Combat"`, clears the difficulty, records exactly one failed
`DetectionInfo` with `step = "existence"`, and consults neither difficulty
table (its result does not depend on them). -/
theorem detect_map_unknown_entities (ctx : DetectCtx) (c : Combat)
    (h : ∀ n ∈ (build_critters ctx.getName c.damage_in_npc).map (fun p => p.1),
      (ctx.existence.map (fun p => p.1)).contains n = false) :
    detect_map ctx c
      = { c with
          map := some "Combat"
          difficulty := none
          detection_info := some [⟨false, none, [], none, none,
            some "existence", none, none⟩] }
    ∧ ∀ dt ht,
        detect_map { ctx with deaths_table := dt, hulls_table := ht } c
          = detect_map ctx c := by
  have hcand : detectCandidates ctx c = [] := by
    unfold detectCandidates
    rw [List.filter_eq_nil_iff]
    intro a ha hc
    rw [h a ha] at hc
    cases hc
  have hcand2 : ∀ dt ht,
      detectCandidates { ctx with deaths_table := dt, hulls_table := ht } c = [] :=
    fun _ _ => hcand
  constructor
  · simp only [detect_map, hcand]
  · intro dt ht
    simp only [detect_map, hcand, hcand2 dt ht]

def ctxW3 : DetectCtx := ⟨fun s => s, [("KnownEntity", ("MapX", "Any"))], [], []⟩

def combatW3 : Combat := { damage_in_npc := [⟨"UnknownEntity", 1⟩] }

/-- Claim C3 witness at a concrete combat whose only entity is unknown to
the existence table. -/
theorem detect_map_unknown_entities_witness :
    (detect_map ctxW3 combatW3).map = some "Combat"
    ∧ (detect_map ctxW3 combatW3).difficulty = none
    ∧ (detect_map ctxW3 combatW3).detection_info
        = some [⟨false, none, [], none, none, some "existence", none, none⟩] := by
  have h := detect_map_unknown_entities ctxW3 combatW3 (by decide)
  refine ⟨?_, ?_, ?_⟩ <;> rw [h.1]

/-- Claim C4: when some candidate's existence entry fixes a difficulty (the
first such candidate in the deterministic scan order), `detect_map` takes
map and difficulty from that entry, records exactly one successful
`DetectionInfo` with `category = "both"` and `step = "existence"`, and
performs no death-count or hull-damage checks (its result does not depend on
either difficulty table). -/
theorem detect_map_fixed_difficulty (ctx : DetectCtx) (c : Combat) (i : String)
    (hfind : (detectCandidates ctx c).find?
        (fun n => decide ((existGet ctx n).2 ≠ "Any")) = some i) :
    detect_map ctx c
      = { c with
          map := some (existGet ctx i).1
          difficulty := some (existGet ctx i).2
          detection_info := some [⟨true, some "both", [i], none, none,
            some "existence", some (existGet ctx i).1,
            some (existGet ctx i).2⟩] }
    ∧ ∀ dt ht,
        detect_map { ctx with deaths_table := dt, hulls_table := ht } c
          = detect_map ctx c := by
  cases hcand : detectCandidates ctx c with
  | nil => rw [hcand] at hfind; cases hfind
  | cons i0 r0 =>
      rw [hcand] at hfind
      have hcand2 : ∀ dt ht,
          detectCandidates { ctx with deaths_table := dt, hulls_table := ht } c
            = i0 :: r0 := fun _ _ => hcand
      have hmain : detect_map ctx c
          = { c with
              map := some (existGet ctx i).1
              difficulty := some (existGet ctx i).2
              detection_info := some [⟨true, some "both", [i], none, none,
                some "existence", some (existGet ctx i).1,
                some (existGet ctx i).2⟩] } := by
        simp only [detect_map, hcand]
        rw [detectScan_find_fixed ctx _ r0 _ i0 i hfind]
      refine ⟨hmain, ?_⟩
      intro dt ht
      rw [hmain]
      simp only [detect_map, hcand2 dt ht]
      rw [detectScan_find_fixed { ctx with deaths_table := dt, hulls_table := ht }
        _ r0 _ i0 i hfind]
      rfl

def ctxW4 : DetectCtx := ⟨fun s => s, [("EliteMarker", ("MapY", "Elite"))], [], []⟩

def combatW4 : Combat := { damage_in_npc := [⟨"EliteMarker", 3⟩] }

/-- Claim C4 witness at a concrete combat matching a fixed-difficulty
existence entry. -/
theorem detect_map_fixed_difficulty_witness :
    (detect_map ctxW4 combatW4).map = some "MapY"
    ∧ (detect_map ctxW4 combatW4).difficulty = some "Elite"
    ∧ (detect_map ctxW4 combatW4).detection_info
        = some [⟨true, some "both", ["EliteMarker"], none, none,
            some "existence", some "MapY", some "Elite"⟩] := by
  have h := detect_map_fixed_difficulty ctxW4 combatW4 "EliteMarker" (by decide)
  refine ⟨?_, ?_, ?_⟩ <;> (rw [h.1]; rfl)

lemma deathsStage_fst_frame (critters : List (String × CritterMeta)) :
    ∀ (tbl : List (String × List (String × ℤ))) (st : Combat × List DetectionInfo),
      ∃ d, (deathsStage tbl critters st).1 = { st.1 with difficulty := d } := by
  intro tbl
  induction tbl with
  | nil => intro st; exact ⟨st.1.difficulty, rfl⟩
  | cons e t ih =>
      intro st
      simp only [deathsStage, List.foldl_cons] at ih ⊢
      rcases ih ((if (check_difficulty_deaths e.2 critters).success
          then { st.1 with difficulty := some e.1 } else st.1),
          st.2 ++ [{ check_difficulty_deaths e.2 critters with difficulty := some e.1 }])
        with ⟨d, hd⟩
      refine ⟨d, ?_⟩
      rw [hd]
      by_cases hs : (check_difficulty_deaths e.2 critters).success
      · simp only [if_pos hs]
      · simp only [if_neg hs]

lemma hullsStage_fst_frame (critters : List (String × CritterMeta)) :
    ∀ (tbl : List (String × List (String × ℚ))) (st : Combat × List DetectionInfo),
      ∃ d, (hullsStage tbl critters st).1 = { st.1 with difficulty := d } := by
  intro tbl
  induction tbl with
  | nil => intro st; exact ⟨st.1.difficulty, rfl⟩
  | cons e t ih =>
      intro st
      simp only [hullsStage, List.foldl_cons] at ih ⊢
      rcases ih ((if (check_difficulty_damage e.2 critters).success
          then { st.1 with difficulty := some e.1 } else st.1),
          st.2 ++ [{ check_difficulty_damage e.2 critters with difficulty := some e.1 }])
        with ⟨d, hd⟩
      refine ⟨d, ?_⟩
      rw [hd]
      by_cases hs : (check_difficulty_damage e.2 critters).success
      · simp only [if_pos hs]
      · simp only [if_neg hs]

lemma detectStages_fst_frame (ctx : DetectCtx)
    (critters : List (String × CritterMeta)) (st : Combat × List DetectionInfo) :
    ∃ d, (detectStages ctx critters st).1 = { st.1 with difficulty := d } := by
  obtain ⟨d1, h1⟩ := deathsStage_fst_frame critters
    ((assocGet ctx.deaths_table (st.1.map.getD "")).getD []) st
  obtain ⟨d2, h2⟩ := hullsStage_fst_frame critters
    ((assocGet ctx.hulls_table
      ((deathsStage ((assocGet ctx.deaths_table (st.1.map.getD "")).getD [])
        critters st).1.map.getD "")).getD [])
    (deathsStage ((assocGet ctx.deaths_table (st.1.map.getD "")).getD [])
      critters st)
  refine ⟨d2, ?_⟩
  simp only [detectStages]
  rw [h2, h1]

lemma detectTail_frame (ctx : DetectCtx) (critters : List (String × CritterMeta))
    (c : Combat) (ident : String) :
    ∃ d di, detectTail ctx critters c ident
      = { c with difficulty := d, detection_info := some di } := by
  obtain ⟨d, hd⟩ := detectStages_fst_frame ctx critters
    (c, [DetectionInfo.mk true (some "map") [ident] none none
      (some "existence") c.map none])
  refine ⟨d, (detectStages ctx critters (c, [DetectionInfo.mk true (some "map")
    [ident] none none (some "existence") c.map none])).2, ?_⟩
  simp only [detectTail]
  rw [hd]

lemma detectScan_frame (ctx : DetectCtx) (critters : List (String × CritterMeta)) :
    ∀ (rest : List String) (c : Combat) (ident : String),
      ∃ m d di, detectScan ctx critters c ident rest
        = { c with map := m, difficulty := d, detection_info := di } := by
  intro rest
  induction rest with
  | nil =>
      intro c ident
      by_cases hp : (existGet ctx ident).2 ≠ "Any"
      · exact ⟨some (existGet ctx ident).1, some (existGet ctx ident).2,
          some [⟨true, some "both", [ident], none, none, some "existence",
            some (existGet ctx ident).1, some (existGet ctx ident).2⟩],
          by simp only [detectScan, if_pos hp]⟩
      · rcases detectTail_frame ctx critters
            { c with map := some (existGet ctx ident).1 } ident with ⟨d, di, h⟩
        refine ⟨some (existGet ctx ident).1, d, some di, ?_⟩
        simp only [detectScan, if_neg hp]
        rw [h]
  | cons j r ih =>
      intro c ident
      by_cases hp : (existGet ctx ident).2 ≠ "Any"
      · exact ⟨some (existGet ctx ident).1, some (existGet ctx ident).2,
          some [⟨true, some "both", [ident], none, none, some "existence",
            some (existGet ctx ident).1, some (existGet ctx ident).2⟩],
          by simp only [detectScan, if_pos hp]⟩
      · rcases ih { c with map := some (existGet ctx ident).1 } j with ⟨m, d, di, h⟩
        refine ⟨m, d, di, ?_⟩
        simp only [detectScan, if_neg hp]
        rw [h]

/-- Claim C5 (amended): `detect_map` writes only the three outputs `map`,
`difficulty` and `detection_info`; every other field of the combat record —
including `critter_meta`, which the claim asserted is rebuilt — is left
unchanged (the critter aggregation of the run is held in a local variable
and never stored on the record). -/
theorem detect_map_frame (ctx : DetectCtx) (c : Combat) :
    (∃ m d di,
      detect_map ctx c = { c with map := m, difficulty := d, detection_info := di })
    ∧ (detect_map ctx c).critter_meta = c.critter_meta
    ∧ (detect_map ctx c).players = c.players
    ∧ (detect_map ctx c).log_data = c.log_data
    ∧ (detect_map ctx c).id = c.id
    ∧ (detect_map ctx c).start_time = c.start_time
    ∧ (detect_map ctx c).end_time = c.end_time
    ∧ (detect_map ctx c).file_pos = c.file_pos
    ∧ (detect_map ctx c).log_file = c.log_file
    ∧ (detect_map ctx c).meta_log_duration = c.meta_log_duration
    ∧ (detect_map ctx c).meta_player_duration = c.meta_player_duration
    ∧ (detect_map ctx c).critters = c.critters
    ∧ (detect_map ctx c).graph_resolution = c.graph_resolution
    ∧ (detect_map ctx c).overview_graphs = c.overview_graphs
    ∧ (detect_map ctx c).damage_out_players = c.damage_out_players
    ∧ (detect_map ctx c).damage_in_players = c.damage_in_players
    ∧ (detect_map ctx c).damage_in_npc = c.damage_in_npc
    ∧ (detect_map ctx c).heals_out_players = c.heals_out_players := by
  have hex : ∃ m d di, detect_map ctx c
      = { c with map := m, difficulty := d, detection_info := di } := by
    cases hcand : detectCandidates ctx c with
    | nil =>
        refine ⟨some "Combat", none, some [⟨false, none, [], none, none,
          some "existence", none, none⟩], ?_⟩
        simp only [detect_map, hcand]
    | cons i0 r0 =>
        rcases detectScan_frame ctx (build_critters ctx.getName c.damage_in_npc)
          r0 { c with map := some "" } i0 with ⟨m, d, di, h⟩
        refine ⟨m, d, di, ?_⟩
        simp only [detect_map, hcand]
        rw [h]
  rcases hex with ⟨m, d, di, h⟩
  exact ⟨⟨m, d, di, h⟩, by rw [h], by rw [h], by rw [h], by rw [h], by rw [h],
    by rw [h], by rw [h], by rw [h], by rw [h], by rw [h], by rw [h], by rw [h],
    by rw [h], by rw [h], by rw [h], by rw [h], by rw [h]⟩

def ctxX5 : DetectCtx := ⟨fun s => s, [("BorgSphere", ("MapZ", "Any"))], [], []⟩

def combatX5 : Combat := { damage_in_npc := [⟨"BorgSphere", 10⟩] }

/-- Claim C5 counterexample: after `detect_map` runs on a combat whose
damage-received tree contains one entity, the record's `critter_meta` is
still empty and differs from the critter aggregate the run built, so the
claimed "critterMeta has been rebuilt for this run, mapping each canonical
entity name to an aggregate" is false on the code: `detect_map` keeps its
aggregate in a local variable and never writes the field. -/
theorem detect_map_meta_counterexample :
    (detect_map ctxX5 combatX5).critter_meta = []
    ∧ build_critters ctxX5.getName combatX5.damage_in_npc
        = [("BorgSphere", ⟨"BorgSphere", 1, [10]⟩)]
    ∧ (detect_map ctxX5 combatX5).critter_meta
        ≠ build_critters ctxX5.getName combatX5.damage_in_npc := by
  refine ⟨by rfl, by rfl, ?_⟩
  intro h
  rw [show (detect_map ctxX5 combatX5).critter_meta = [] from rfl] at h
  rw [show build_critters ctxX5.getName combatX5.damage_in_npc
        = [("BorgSphere", ⟨"BorgSphere", 1, [10]⟩)] from rfl] at h
  cases h

/-- The `try: x / y except ZeroDivisionError: 0.0` pattern used for the
share computations (`combat.py` lines 195-211): Python raises on a zero
divisor and the handler substitutes `0.0`. -/
def zdiv (a b : ℚ) : ℚ := if b = 0 then 0 else a / b

/-- `numpy.linspace(start, stop, num)` with inclusive endpoint: `num` evenly
spaced rationals. -/
def linspace (start stop : ℚ) (num : ℕ) : List ℚ :=
  if num = 0 then []
  else if num = 1 then [start]
  else List.map (fun i : ℕ => start + (stop - start) * (i : ℚ) / ((num : ℚ) - 1))
    (List.range num)

/-- Running cumulative sum with carry `s`. -/
def cumsumFrom (s : ℚ) : List ℚ → List ℚ
  | [] => []
  | x :: r => (s + x) :: cumsumFrom (s + x) r

/-- `numpy.ndarray.cumsum()`. -/
def cumsum (l : List ℚ) : List ℚ := cumsumFrom 0 l

/-- `round(x, 1)` on the graph times (`combat.py` line 331).  Python's
float round uses banker's rounding at ties; the tie behavior is irrelevant
to every claim (only lengths and zero-ness are used). -/
def round1 (x : ℚ) : ℚ := ((round (x * 10) : ℤ) : ℚ) / 10

/-- `Combat.get_player_item` (`combat.py` lines 222-228): first player row of
the model whose identity pair equals `name_and_handle`. -/
def get_player_item (rows : List Row) (name_and_handle : String × String) :
    Option Row :=
  rows.find? (fun r => r.d0 == name_and_handle)

/-- `Combat.create_overview_graphs` (`combat.py` lines 110-125).  The source
indexes `self.overview_graphs[player.handle]` (its caller guards on the
interval table); the `getD []` totalizes the lookup.  numpy's elementwise
division is exact here over `ℚ`. -/
def create_overview_graphs (c : Combat) (player : OverviewTableRow)
    (combat_interval : ℕ × ℕ) : OverviewTableRow :=
  let graph := (assocGet c.overview_graphs player.handle).getD []
  let dmg_graph := (graph.drop combat_interval.1).take
    (combat_interval.2 + 1 - combat_interval.1)
  let first_graph_time := c.graph_resolution * ((combat_interval.1 : ℚ) + 1)
  let last_graph_time := c.graph_resolution * ((combat_interval.2 : ℚ) + 1)
  let graph_time := linspace first_graph_time last_graph_time dmg_graph.length
  let combat_time_array := graph_time.map
    (fun t => t - c.graph_resolution * (combat_interval.1 : ℚ))
  { player with
    DMG_graph_data := dmg_graph
    graph_time := graph_time
    DPS_graph_data := List.zipWith (fun x y => x / y) (cumsum dmg_graph)
      combat_time_array }

/-- One player construction of the `create_overview` loop (`combat.py` lines
143-181): the damage-dealt row fields are copied, the damage-received and
heal-dealt rows are looked up by identity (absence leaves the zero
defaults), and graphs are built when the handle has an interval.  The
combat-duration division for `combat_time_share` assumes both timestamps are
set (upstream contract; Python would raise on `None`). -/
def buildOverviewRow (c : Combat) (intervals : List (String × ℕ × ℕ))
    (row : Row) : OverviewTableRow :=
  let p1 : OverviewTableRow :=
    { name := row.d0.1, handle := row.d0.2, DPS := row.d1,
      combat_time := row.d19,
      combat_time_share := row.d19 / (c.end_time.getD 0 - c.start_time.getD 0),
      total_damage := row.d2, debuff := row.d3, max_one_hit := row.d4,
      crit_chance := row.d5, total_attacks := row.d9, hull_attacks := row.d20,
      crit_num := row.d11, misses := row.d10 }
  let p2 := match get_player_item c.damage_in_players row.d0 with
    | some r =>
        { p1 with
          deaths := r.d8
          total_damage_taken := r.d2
          total_hull_damage_taken := r.d15
          total_shield_damage_taken := r.d13
          attacks_in_num := r.d9 }
    | none => p1
  let p3 := match get_player_item c.heals_out_players row.d0 with
    | some r =>
        { p2 with
          total_heals := r.d2
          heal_crit_chance := r.d8
          heal_crit_num := r.d10
          heal_num := r.d9 }
    | none => p2
  match assocGet intervals row.d0.2 with
  | some iv => create_overview_graphs c p3 iv
  | none => p3

/-- One iteration of the `create_overview` loop including the running totals
(`combat.py` lines 143-193): rows with non-positive combat duration are
skipped; the totals accumulate damage dealt unconditionally and the
damage-received / heal contributions only when the matching row exists. -/
def overviewStep (c : Combat) (intervals : List (String × ℕ × ℕ))
    (st : List (String × OverviewTableRow) × ℚ × ℚ × ℚ × ℚ) (row : Row) :
    List (String × OverviewTableRow) × ℚ × ℚ × ℚ × ℚ :=
  if row.d19 ≤ 0 then st
  else
    (dictInsert st.1 (row.d0.1 ++ row.d0.2) (buildOverviewRow c intervals row),
     st.2.1 + row.d2,
     st.2.2.1 + (match get_player_item c.damage_in_players row.d0 with
       | some r => r.d9 | none => 0),
     st.2.2.2.1 + (match get_player_item c.damage_in_players row.d0 with
       | some r => r.d2 | none => 0),
     st.2.2.2.2 + (match get_player_item c.heals_out_players row.d0 with
       | some r => r.d2 | none => 0))

/-- The player-building pass of `create_overview` over the damage-dealt
player rows, threading `(players, totalDamageOut, totalAttacksIn,
totalDamageIn, totalHeals)`. -/
def overviewFold (c : Combat) (intervals : List (String × ℕ × ℕ)) :
    List (String × OverviewTableRow) × ℚ × ℚ × ℚ × ℚ :=
  c.damage_out_players.foldl (overviewStep c intervals) (c.players, 0, 0, 0, 0)

/-- `Combat.create_overview` (`combat.py` lines 127-211): build the players
and totals, then compute the four share fields with the zero-fallback
division. -/
def create_overview (c : Combat) (intervals : List (String × ℕ × ℕ)) : Combat :=
  let st := overviewFold c intervals
  { c with
    players := st.1.map (fun kp => (kp.1,
      { kp.2 with
        heal_share := zdiv kp.2.total_heals st.2.2.2.2
        attacks_in_share := zdiv kp.2.attacks_in_num st.2.2.1
        taken_damage_share := zdiv kp.2.total_damage_taken st.2.2.2.1
        damage_share := zdiv kp.2.total_damage st.2.1 })) }

/-- The filtered-set totals of `analyze_players` (`combat.py` lines 278-282):
`(totalDamage, totalDamageTaken, totalAttacksIn, totalHeals)`. -/
def analyzeTotals (players : List (String × OverviewTableRow)) : ℚ × ℚ × ℚ × ℚ :=
  players.foldl (fun t kp =>
    (t.1 + kp.2.total_damage, t.2.1 + kp.2.total_damage_taken,
     t.2.2.1 + kp.2.attacks_in_num, t.2.2.2 + kp.2.total_heals)) (0, 0, 0, 0)

/-- The build-detection scan of `analyze_players` (`combat.py` lines
324-328): each marker whose substring occurs in some event overwrites the
build label (the outer loop has no early exit, so the last matching table
entry wins). -/
def detectBuild (buildTable : List (String × String)) (events : List String)
    (build0 : String) : String :=
  buildTable.foldl (fun b kv =>
    if events.any (fun e => decide (List.IsInfix kv.1.toList e.toList))
    then kv.2 else b) build0

/-- The per-player recomputation of `analyze_players` (`combat.py` lines
284-334).  The filter guarantees `combat_interval.isSome`; the `getD`
totalizes.  Each `if _ = 0` renders a `try/except ZeroDivisionError` (or the
explicit `successful_attacks > 0` guard of the crit chance). -/
def analyzeOne (buildTable : List (String × String)) (totals : ℚ × ℚ × ℚ × ℚ)
    (p : OverviewTableRow) : OverviewTableRow :=
  let iv := p.combat_interval.getD (0, 0)
  let combat_time := iv.2 - iv.1
  let successful_attacks := p.hull_attacks - p.misses
  let graph_time2 := p.graph_time.map round1
  { p with
    combat_time := combat_time
    debuff := if p.base_damage = 0 then 0
      else (p.total_damage / p.base_damage - 1) * 100
    DPS := if combat_time = 0 then 0 else p.total_damage / combat_time
    crit_chance := if 0 < successful_attacks
      then p.crit_num / successful_attacks * 100 else 0
    heal_crit_chance := if p.heal_num = 0 then 0
      else p.heal_crit_num / p.heal_num * 100
    damage_share := if totals.1 = 0 then 0
      else p.total_damage / totals.1 * 100
    taken_damage_share := if totals.2.1 = 0 then 0
      else p.total_damage_taken / totals.2.1 * 100
    attacks_in_share := if totals.2.2.1 = 0 then 0
      else p.attacks_in_num / totals.2.2.1 * 100
    heal_share := if totals.2.2.2 = 0 then 0
      else p.total_heals / totals.2.2.2 * 100
    build := detectBuild buildTable (p.events.getD []) p.build
    graph_time := graph_time2
    DPS_graph_data := List.zipWith (fun x y => x / y) (cumsum p.DMG_graph_data)
      graph_time2 }

/-- `Combat.analyze_players` (`combat.py` lines 261-334): keep exactly the
players with a non-null combat interval and a non-null event list, compute
the filtered-set totals, and recompute each retained player's metrics.  The
build-marker table (`detection.py`, absent from src) is a parameter. -/
def analyze_players (buildTable : List (String × String)) (c : Combat) : Combat :=
  let players := c.players.filter
    (fun kp => kp.2.combat_interval.isSome && kp.2.events.isSome)
  { c with
    players := players.map (fun kp =>
      (kp.1, analyzeOne buildTable (analyzeTotals players) kp.2)) }

/-- Claim C6: in Pass 1 every share metric is exactly `0` when its
accumulated total is `0`, and in Pass 2 the debuff, DPS, crit chance, heal
crit chance and the four percentage shares are exactly `0` when their
denominators are `0`; over `ℚ` no division fault, `NaN` or infinity can
arise — the zero-fallbacks are total definitions. -/
theorem aggregator_zero_denominators :
    (∀ (c : Combat) (intervals : List (String × ℕ × ℕ)) (k : String)
        (p : OverviewTableRow), (k, p) ∈ (create_overview c intervals).players →
      ((overviewFold c intervals).2.2.2.2 = 0 → p.heal_share = 0)
      ∧ ((overviewFold c intervals).2.2.1 = 0 → p.attacks_in_share = 0)
      ∧ ((overviewFold c intervals).2.2.2.1 = 0 → p.taken_damage_share = 0)
      ∧ ((overviewFold c intervals).2.1 = 0 → p.damage_share = 0))
    ∧ (∀ (buildTable : List (String × String)) (c : Combat) (k : String)
        (p : OverviewTableRow),
        (k, p) ∈ (analyze_players buildTable c).players →
      (p.base_damage = 0 → p.debuff = 0)
      ∧ (p.combat_time = 0 → p.DPS = 0)
      ∧ (p.hull_attacks - p.misses = 0 → p.crit_chance = 0)
      ∧ (p.heal_num = 0 → p.heal_crit_chance = 0)
      ∧ ((analyzeTotals (c.players.filter (fun kp =>
            kp.2.combat_interval.isSome && kp.2.events.isSome))).1 = 0 →
          p.damage_share = 0)
      ∧ ((analyzeTotals (c.players.filter (fun kp =>
            kp.2.combat_interval.isSome && kp.2.events.isSome))).2.1 = 0 →
          p.taken_damage_share = 0)
      ∧ ((analyzeTotals (c.players.filter (fun kp =>
            kp.2.combat_interval.isSome && kp.2.events.isSome))).2.2.1 = 0 →
          p.attacks_in_share = 0)
      ∧ ((analyzeTotals (c.players.filter (fun kp =>
            kp.2.combat_interval.isSome && kp.2.events.isSome))).2.2.2 = 0 →
          p.heal_share = 0)) := by
  constructor
  · intro c intervals k p hmem
    simp only [create_overview, List.mem_map] at hmem
    obtain ⟨kp, hkp, heq⟩ := hmem
    injection heq with h1 h2
    subst h2
    refine ⟨?_, ?_, ?_, ?_⟩ <;> intro h <;> simp [zdiv, h]
  · intro bt c k p hmem
    simp only [analyze_players, List.mem_map] at hmem
    obtain ⟨kp, hkp, heq⟩ := hmem
    injection heq with h1 h2
    subst h2
    refine ⟨?_, ?_, ?_, ?_, ?_, ?_, ?_, ?_⟩ <;> intro h
    · simp only [analyzeOne]
      rw [if_pos (show kp.2.base_damage = 0 from h)]
    · simp only [analyzeOne]
      rw [if_pos (show (kp.2.combat_interval.getD (0, 0)).2
        - (kp.2.combat_interval.getD (0, 0)).1 = 0 from h)]
    · simp only [analyzeOne]
      rw [show kp.2.hull_attacks - kp.2.misses = 0 from h]
      simp
    · simp only [analyzeOne]
      rw [if_pos (show kp.2.heal_num = 0 from h)]
    · simp only [analyzeOne]
      rw [if_pos h]
    · simp only [analyzeOne]
      rw [if_pos h]
    · simp only [analyzeOne]
      rw [if_pos h]
    · simp only [analyzeOne]
      rw [if_pos h]

def playerW6 : OverviewTableRow :=
  { name := "A"
    handle := "B"
    combat_interval := some (0, 0)
    events := some [] }

def combatW6 : Combat := { players := [("AB", playerW6)] }

def pW6 : OverviewTableRow :=
  analyzeOne [] (analyzeTotals [("AB", playerW6)]) playerW6

/-- Claim C6 witness: a concrete retained player with all denominators zero
gets exactly `0` for every guarded metric. -/
theorem aggregator_zero_denominators_witness :
    pW6.debuff = 0 ∧ pW6.DPS = 0 ∧ pW6.crit_chance = 0
    ∧ pW6.heal_crit_chance = 0 ∧ pW6.damage_share = 0
    ∧ pW6.taken_damage_share = 0 ∧ pW6.attacks_in_share = 0
    ∧ pW6.heal_share = 0 := by
  have hmem : ("AB", pW6) ∈ (analyze_players [] combatW6).players := by
    rw [show (analyze_players [] combatW6).players = [("AB", pW6)] from rfl]
    exact List.mem_singleton.mpr rfl
  have h := aggregator_zero_denominators.2 [] combatW6 "AB" pW6 hmem
  have hct : pW6.combat_time = 0 := by
    rw [show pW6.combat_time = (0 : ℚ) - 0 from rfl]; norm_num
  have hsa : pW6.hull_attacks - pW6.misses = 0 := by
    rw [show pW6.hull_attacks = (0 : ℚ) from rfl,
        show pW6.misses = (0 : ℚ) from rfl]
    norm_num
  have ht1 : (analyzeTotals (combatW6.players.filter (fun kp =>
      kp.2.combat_interval.isSome && kp.2.events.isSome))).1 = 0 := by
    rw [show (analyzeTotals (combatW6.players.filter (fun kp =>
      kp.2.combat_interval.isSome && kp.2.events.isSome))).1 = (0 : ℚ) + 0
      from rfl]
    norm_num
  have ht2 : (analyzeTotals (combatW6.players.filter (fun kp =>
      kp.2.combat_interval.isSome && kp.2.events.isSome))).2.1 = 0 := by
    rw [show (analyzeTotals (combatW6.players.filter (fun kp =>
      kp.2.combat_interval.isSome && kp.2.events.isSome))).2.1 = (0 : ℚ) + 0
      from rfl]
    norm_num
  have ht3 : (analyzeTotals (combatW6.players.filter (fun kp =>
      kp.2.combat_interval.isSome && kp.2.events.isSome))).2.2.1 = 0 := by
    rw [show (analyzeTotals (combatW6.players.filter (fun kp =>
      kp.2.combat_interval.isSome && kp.2.events.isSome))).2.2.1 = (0 : ℚ) + 0
      from rfl]
    norm_num
  have ht4 : (analyzeTotals (combatW6.players.filter (fun kp =>
      kp.2.combat_interval.isSome && kp.2.events.isSome))).2.2.2 = 0 := by
    rw [show (analyzeTotals (combatW6.players.filter (fun kp =>
      kp.2.combat_interval.isSome && kp.2.events.isSome))).2.2.2 = (0 : ℚ) + 0
      from rfl]
    norm_num
  exact ⟨h.1 rfl, h.2.1 hct, h.2.2.1 hsa, h.2.2.2.1 rfl, h.2.2.2.2.1 ht1,
    h.2.2.2.2.2.1 ht2, h.2.2.2.2.2.2.1 ht3, h.2.2.2.2.2.2.2 ht4⟩

def playerX7 : OverviewTableRow :=
  { name := "A"
    handle := "B"
    combat_interval := some (0, 1)
    events := some [] }

def combatX7 : Combat := { players := [("AB", playerX7)] }

/-- Claim C7 counterexample: a player with a combat interval and an event
list that exists but is empty is claimed to be removed by Pass 2; the code's
filter tests only `events is not None`, so the player is retained — the
result's key list is `["AB"]`, not `[]`. -/
theorem analyze_players_empty_events_counterexample :
    (analyze_players [] combatX7).players.map (fun kp => kp.1) = ["AB"] := rfl

lemma key_mem_map {α β : Type} (g : String × α → β) (l : List (String × α))
    (k : String) :
    (∃ p, (k, p) ∈ l.map (fun kp => (kp.1, g kp))) ↔ ∃ q, (k, q) ∈ l := by
  constructor
  · rintro ⟨p, hp⟩
    rcases List.mem_map.mp hp with ⟨kp, hkp, heq⟩
    injection heq with h1 h2
    subst h1
    exact ⟨kp.2, by rw [Prod.mk.eta]; exact hkp⟩
  · rintro ⟨q, hq⟩
    exact ⟨g (k, q), List.mem_map.mpr ⟨(k, q), hq, rfl⟩⟩

lemma dictInsert_key_mem {α : Type} :
    ∀ (l : List (String × α)) (k0 : String) (v : α) (k : String),
      (∃ p, (k, p) ∈ dictInsert l k0 v) ↔ (k = k0 ∨ ∃ p, (k, p) ∈ l) := by
  intro l
  induction l with
  | nil =>
      intro k0 v k
      simp [dictInsert, Prod.ext_iff]
  | cons hd tl ih =>
      intro k0 v k
      obtain ⟨hk, hv⟩ := hd
      by_cases he : hk = k0
      · subst he
        have hins : dictInsert ((hk, hv) :: tl) hk v = (hk, v) :: tl := by
          simp [dictInsert]
        rw [hins]
        constructor
        · rintro ⟨p, hp⟩
          rcases List.mem_cons.mp hp with heq | hp2
          · exact Or.inl (congrArg Prod.fst heq)
          · exact Or.inr ⟨p, List.mem_cons_of_mem _ hp2⟩
        · rintro (rfl | ⟨p, hp⟩)
          · exact ⟨v, List.mem_cons_self _ _⟩
          · rcases List.mem_cons.mp hp with heq | hp2
            · refine ⟨v, ?_⟩
              rw [show k = hk from congrArg Prod.fst heq]
              exact List.mem_cons_self _ _
            · exact ⟨p, List.mem_cons_of_mem _ hp2⟩
      · simp only [dictInsert, if_neg he]
        simp only [List.mem_cons, Prod.ext_iff]
        constructor
        · rintro ⟨p, (⟨h1, h2⟩ | hp)⟩
          · exact Or.inr ⟨hv, Or.inl ⟨h1, rfl⟩⟩
          · rcases (ih k0 v k).mp ⟨p, hp⟩ with h | ⟨p2, hp2⟩
            · exact Or.inl h
            · exact Or.inr ⟨p2, Or.inr hp2⟩
        · rintro (h | ⟨p, (⟨h1, h2⟩ | hp)⟩)
          · rcases (ih k0 v k).mpr (Or.inl h) with ⟨p, hp⟩
            exact ⟨p, Or.inr hp⟩
          · exact ⟨hv, Or.inl ⟨h1, rfl⟩⟩
          · rcases (ih k0 v k).mpr (Or.inr ⟨p, hp⟩) with ⟨p2, hp2⟩
            exact ⟨p2, Or.inr hp2⟩

lemma overviewFold_key_mem (c : Combat) (intervals : List (String × ℕ × ℕ)) :
    ∀ (rows : List Row) (st : List (String × OverviewTableRow) × ℚ × ℚ × ℚ × ℚ)
      (k : String),
      (∃ p, (k, p) ∈ (rows.foldl (overviewStep c intervals) st).1)
        ↔ (∃ p, (k, p) ∈ st.1)
          ∨ ∃ row, row ∈ rows ∧ 0 < row.d19 ∧ row.d0.1 ++ row.d0.2 = k := by
  intro rows
  induction rows with
  | nil => intro st k; simp
  | cons e rows ih =>
      intro st k
      rw [List.foldl_cons, ih (overviewStep c intervals st e) k]
      by_cases hd : e.d19 ≤ 0
      · have hne : ¬ (0 < e.d19) := not_lt.mpr hd
        simp only [overviewStep, if_pos hd]
        constructor
        · rintro (h | ⟨row, hrow, hpos, hkey⟩)
          · exact Or.inl h
          · exact Or.inr ⟨row, List.mem_cons_of_mem _ hrow, hpos, hkey⟩
        · rintro (h | ⟨row, hrow, hpos, hkey⟩)
          · exact Or.inl h
          · rcases List.mem_cons.mp hrow with rfl | hrow2
            · exact absurd hpos hne
            · exact Or.inr ⟨row, hrow2, hpos, hkey⟩
      · have hpos0 : 0 < e.d19 := not_le.mp hd
        simp only [overviewStep, if_neg hd]
        rw [dictInsert_key_mem]
        constructor
        · rintro ((rfl | h) | ⟨row, hrow, hpos, hkey⟩)
          · exact Or.inr ⟨e, List.mem_cons_self _ _, hpos0, rfl⟩
          · exact Or.inl h
          · exact Or.inr ⟨row, List.mem_cons_of_mem _ hrow, hpos, hkey⟩
        · rintro (h | ⟨row, hrow, hpos, hkey⟩)
          · exact Or.inl (Or.inr h)
          · rcases List.mem_cons.mp hrow with rfl | hrow2
            · exact Or.inl (Or.inl hkey.symm)
            · exact Or.inr ⟨row, hrow2, hpos, hkey⟩

/-- Claim C7 (amended): Pass 2 retains exactly the players whose combat
interval is non-null and whose event list is non-null — an event list that
exists but is empty is retained, not removed — and, starting from an empty
player mapping, Pass 1 adds exactly the keys of damage-dealt rows with
positive combat duration (a row with duration `≤ 0` is skipped). -/
theorem analyze_players_retention :
    (∀ (buildTable : List (String × String)) (c : Combat) (k : String),
      (∃ p, (k, p) ∈ (analyze_players buildTable c).players)
        ↔ ∃ q, (k, q) ∈ c.players ∧ q.combat_interval.isSome = true
            ∧ q.events.isSome = true)
    ∧ (∀ (c : Combat) (intervals : List (String × ℕ × ℕ)) (k : String),
      c.players = [] →
      ((∃ p, (k, p) ∈ (create_overview c intervals).players)
        ↔ ∃ row, row ∈ c.damage_out_players ∧ 0 < row.d19
            ∧ row.d0.1 ++ row.d0.2 = k)) := by
  constructor
  · intro bt c k
    simp only [analyze_players]
    rw [key_mem_map (fun kp => analyzeOne bt (analyzeTotals (c.players.filter
      (fun kp => kp.2.combat_interval.isSome && kp.2.events.isSome))) kp.2)]
    constructor
    · rintro ⟨q, hq⟩
      rcases List.mem_filter.mp hq with ⟨hmem, hpred⟩
      simp only [Bool.and_eq_true] at hpred
      exact ⟨q, hmem, hpred.1, hpred.2⟩
    · rintro ⟨q, hmem, h1, h2⟩
      exact ⟨q, List.mem_filter.mpr ⟨hmem, by simp [h1, h2]⟩⟩
  · intro c intervals k hempty
    simp only [create_overview]
    refine Iff.trans (key_mem_map _ _ _) ?_
    simp only [overviewFold]
    rw [overviewFold_key_mem c intervals c.damage_out_players
      (c.players, 0, 0, 0, 0) k]
    rw [hempty]
    simp

def rowW7 : Row := { d0 := ("A", "B"), d19 := 1 }

def combatW7 : Combat := { damage_out_players := [rowW7] }

/-- Claim C7 witness: a damage-dealt row with positive combat duration
yields its key in the Pass-1 player mapping of a fresh record. -/
theorem analyze_players_retention_witness :
    "AB" ∈ (create_overview combatW7 []).players.map (fun kp => kp.1) := by
  have h := (analyze_players_retention.2 combatW7 [] "AB" rfl).mpr
    ⟨rowW7, List.mem_cons_self rowW7 [], by
      rw [show rowW7.d19 = (1 : ℚ) from rfl]; norm_num, rfl⟩
  obtain ⟨p, hp⟩ := h
  exact List.mem_map.mpr ⟨("AB", p), hp, rfl⟩

lemma cumsumFrom_length : ∀ (l : List ℚ) (s : ℚ), (cumsumFrom s l).length = l.length := by
  intro l
  induction l with
  | nil => intro s; rfl
  | cons x r ih => intro s; simp [cumsumFrom, ih]

lemma cumsum_length (l : List ℚ) : (cumsum l).length = l.length :=
  cumsumFrom_length l 0

lemma linspace_length (s e : ℚ) (n : ℕ) : (linspace s e n).length = n := by
  unfold linspace
  by_cases h0 : n = 0
  · simp [h0]
  · by_cases h1 : n = 1
    · simp [h0, h1]
    · rw [if_neg h0, if_neg h1, List.length_map, List.length_range]

lemma getD_map_q (f : ℚ → ℚ) : ∀ (l : List ℚ) (i : ℕ), i < l.length →
    (l.map f).getD i 0 = f (l.getD i 0) := by
  intro l
  induction l with
  | nil => intro i hi; cases hi
  | cons x r ih =>
      intro i hi
      cases i with
      | zero => rfl
      | succ j =>
          simp only [List.map_cons, List.getD_cons_succ]
          exact ih j (by simpa using hi)

lemma getD_zipWith_q (f : ℚ → ℚ → ℚ) : ∀ (xs ys : List ℚ) (i : ℕ),
    i < xs.length → i < ys.length →
    (List.zipWith f xs ys).getD i 0 = f (xs.getD i 0) (ys.getD i 0) := by
  intro xs
  induction xs with
  | nil => intro ys i hi _; cases hi
  | cons x xr ih =>
      intro ys i hx hy
      cases ys with
      | nil => cases hy
      | cons y yr =>
          cases i with
          | zero => rfl
          | succ j =>
              simp only [List.zipWith_cons_cons, List.getD_cons_succ]
              exact ih yr j (by simpa using hx) (by simpa using hy)

lemma getD_map_nat (f : ℕ → ℚ) : ∀ (l : List ℕ) (i : ℕ), i < l.length →
    (l.map f).getD i 0 = f (l.getD i 0) := by
  intro l
  induction l with
  | nil => intro i hi; cases hi
  | cons x r ih =>
      intro i hi
      cases i with
      | zero => rfl
      | succ j =>
          simp only [List.map_cons, List.getD_cons_succ]
          exact ih j (by simpa using hi)

lemma linspace_getD (s e : ℚ) (n i : ℕ) (hn : 2 ≤ n) (hi : i < n) :
    (linspace s e n).getD i 0 = s + (e - s) * i / ((n : ℚ) - 1) := by
  unfold linspace
  rw [if_neg (by omega), if_neg (by omega)]
  rw [getD_map_nat _ _ i (by simpa using hi)]
  have : (List.range n).getD i 0 = i := by
    rw [List.getD_eq_getElem _ _ (by simpa using hi)]
    simp
  rw [this]

/-- Claim C8: for an inclusive bucket interval `[a, b]` within the player's
precomputed damage series and resolution `> 0`, `create_overview_graphs`
produces `b - a + 1` graph times `resolution * (a + 1 + i)` (evenly spaced
from `resolution * (a+1)` to `resolution * (b+1)`), and each DPS point `i`
is the cumulative damage at `i` divided by `graphTime i - resolution * a`;
in particular `[2, 5]` at resolution `1/5` yields
`graphTime = [3/5, 4/5, 1, 6/5]`. -/
theorem create_overview_graphs_spec (c : Combat) (p : OverviewTableRow)
    (a b : ℕ) (hab : a ≤ b)
    (hlen : b < ((assocGet c.overview_graphs p.handle).getD []).length)
    (_hres : 0 < c.graph_resolution) :
    (create_overview_graphs c p (a, b)).graph_time.length = b - a + 1
    ∧ (∀ i, i < b - a + 1 →
        (create_overview_graphs c p (a, b)).graph_time.getD i 0
          = c.graph_resolution * ((a : ℚ) + 1 + i))
    ∧ (∀ i, i < b - a + 1 →
        (create_overview_graphs c p (a, b)).DPS_graph_data.getD i 0
          = (cumsum (create_overview_graphs c p (a, b)).DMG_graph_data).getD i 0
            / ((create_overview_graphs c p (a, b)).graph_time.getD i 0
              - c.graph_resolution * (a : ℚ)))
    ∧ (c.graph_resolution = 1/5 → a = 2 → b = 5 →
        (create_overview_graphs c p (a, b)).graph_time = [3/5, 4/5, 1, 6/5]) := by
  have hdlen : ((((assocGet c.overview_graphs p.handle).getD []).drop a).take
      (b + 1 - a)).length = b - a + 1 := by
    rw [List.length_take, List.length_drop]
    omega
  have hgt : (create_overview_graphs c p (a, b)).graph_time
      = linspace (c.graph_resolution * ((a : ℚ) + 1))
          (c.graph_resolution * ((b : ℚ) + 1)) (b - a + 1) := by
    simp only [create_overview_graphs]
    rw [hdlen]
  have hdmg : (create_overview_graphs c p (a, b)).DMG_graph_data
      = (((assocGet c.overview_graphs p.handle).getD []).drop a).take
          (b + 1 - a) := rfl
  have hgtf : ∀ i, i < b - a + 1 →
      (create_overview_graphs c p (a, b)).graph_time.getD i 0
        = c.graph_resolution * ((a : ℚ) + 1 + i) := by
    intro i hi
    rw [hgt]
    by_cases hab2 : a = b
    · subst hab2
      have hi0 : i = 0 := by omega
      subst hi0
      have h1 : a - a + 1 = 1 := by omega
      rw [h1]
      unfold linspace
      norm_num
    · have h2 : 2 ≤ b - a + 1 := by omega
      rw [linspace_getD _ _ _ i h2 hi]
      have hba : ((b : ℚ) - a) ≠ 0 := by
        have : (a : ℚ) < b := by exact_mod_cast lt_of_le_of_ne hab hab2
        linarith
      have hcast : (((b - a + 1 : ℕ) : ℚ) - 1) = (b : ℚ) - (a : ℚ) := by
        push_cast [Nat.cast_sub hab]
        ring
      rw [hcast]
      field_simp
      ring
  refine ⟨?_, hgtf, ?_, ?_⟩
  · rw [hgt, linspace_length]
  · intro i hi
    have hdps : (create_overview_graphs c p (a, b)).DPS_graph_data
        = List.zipWith (fun x y => x / y)
            (cumsum ((((assocGet c.overview_graphs p.handle).getD []).drop
              a).take (b + 1 - a)))
            (((create_overview_graphs c p (a, b)).graph_time).map
              (fun t => t - c.graph_resolution * (a : ℚ))) := rfl
    rw [hdps]
    have hl1 : i < (cumsum ((((assocGet c.overview_graphs p.handle).getD
        []).drop a).take (b + 1 - a))).length := by
      rw [cumsum_length, hdlen]; exact hi
    have hl2 : i < (((create_overview_graphs c p (a, b)).graph_time).map
        (fun t => t - c.graph_resolution * (a : ℚ))).length := by
      rw [List.length_map, hgt, linspace_length]; exact hi
    rw [getD_zipWith_q _ _ _ i hl1 hl2]
    rw [getD_map_q _ _ i (by rw [hgt, linspace_length]; exact hi)]
    rw [hdmg]
  · intro h1 h2 h3
    subst h2 h3
    rw [hgt, h1]
    norm_num [linspace, List.range_succ]

def combatW8 : Combat :=
  { overview_graphs := [("B", [1, 2, 3, 4, 5, 6, 7])], graph_resolution := 1/5 }

def playerW8 : OverviewTableRow := { name := "A", handle := "B" }

/-- Claim C8 witness: slicing the concrete 7-bucket series to `[2, 5]` at
resolution `1/5` gives the four claimed graph times. -/
theorem create_overview_graphs_spec_witness :
    (create_overview_graphs combatW8 playerW8 (2, 5)).graph_time
      = [3/5, 4/5, 1, 6/5] := by
  have h := create_overview_graphs_spec combatW8 playerW8 2 5 (by omega)
    (by decide)
    (by rw [show combatW8.graph_resolution = (1/5 : ℚ) from rfl]; norm_num)
  exact h.2.2.2 rfl rfl rfl

lemma dictInsert_mem_val {α : Type} :
    ∀ (l : List (String × α)) (k0 : String) (v : α) (k : String) (p : α),
      (k, p) ∈ dictInsert l k0 v → (k, p) ∈ l ∨ p = v := by
  intro l
  induction l with
  | nil =>
      intro k0 v k p hp
      rcases List.mem_singleton.mp hp with heq
      exact Or.inr (congrArg Prod.snd heq)
  | cons hd tl ih =>
      intro k0 v k p hp
      obtain ⟨hk, hv⟩ := hd
      by_cases he : hk = k0
      · subst he
        rw [show dictInsert ((hk, hv) :: tl) hk v = (hk, v) :: tl from by
          simp [dictInsert]] at hp
        rcases List.mem_cons.mp hp with heq | hp2
        · exact Or.inr (congrArg Prod.snd heq)
        · exact Or.inl (List.mem_cons_of_mem _ hp2)
      · rw [show dictInsert ((hk, hv) :: tl) k0 v
          = (hk, hv) :: dictInsert tl k0 v from by simp [dictInsert, he]] at hp
        rcases List.mem_cons.mp hp with heq | hp2
        · exact Or.inl (heq ▸ List.mem_cons_self _ _)
        · rcases ih k0 v k p hp2 with h | h
          · exact Or.inl (List.mem_cons_of_mem _ h)
          · exact Or.inr h

lemma overviewFold_mem_val (c : Combat) (intervals : List (String × ℕ × ℕ)) :
    ∀ (rows : List Row) (st : List (String × OverviewTableRow) × ℚ × ℚ × ℚ × ℚ)
      (k : String) (p : OverviewTableRow),
      (k, p) ∈ (rows.foldl (overviewStep c intervals) st).1 →
      (k, p) ∈ st.1 ∨ ∃ row, p = buildOverviewRow c intervals row := by
  intro rows
  induction rows with
  | nil => intro st k p hp; exact Or.inl hp
  | cons e rows ih =>
      intro st k p hp
      rw [List.foldl_cons] at hp
      rcases ih (overviewStep c intervals st e) k p hp with h | h
      · by_cases hd : e.d19 ≤ 0
        · rw [show (overviewStep c intervals st e).1 = st.1 from by
            simp [overviewStep, if_pos hd]] at h
          exact Or.inl h
        · rw [show (overviewStep c intervals st e).1
            = dictInsert st.1 (e.d0.1 ++ e.d0.2)
              (buildOverviewRow c intervals e) from by
            simp [overviewStep, if_neg hd]] at h
          rcases dictInsert_mem_val st.1 _ _ k p h with h2 | h2
          · exact Or.inl h2
          · exact Or.inr ⟨e, h2⟩
      · exact Or.inr h

lemma create_overview_graphs_lengths (c : Combat) (pl : OverviewTableRow)
    (iv : ℕ × ℕ) :
    (create_overview_graphs c pl iv).graph_time.length
      = (create_overview_graphs c pl iv).DMG_graph_data.length
    ∧ (create_overview_graphs c pl iv).DPS_graph_data.length
      = (create_overview_graphs c pl iv).DMG_graph_data.length := by
  constructor
  · simp only [create_overview_graphs]
    rw [linspace_length]
  · simp only [create_overview_graphs]
    rw [List.length_zipWith, cumsum_length, List.length_map, linspace_length,
      min_self]

lemma buildOverviewRow_lengths (c : Combat) (intervals : List (String × ℕ × ℕ))
    (row : Row) :
    (buildOverviewRow c intervals row).graph_time.length
      = (buildOverviewRow c intervals row).DMG_graph_data.length
    ∧ (buildOverviewRow c intervals row).DPS_graph_data.length
      = (buildOverviewRow c intervals row).DMG_graph_data.length := by
  simp only [buildOverviewRow]
  cases hga : assocGet intervals row.d0.2 with
  | some iv => exact create_overview_graphs_lengths c _ iv
  | none =>
      cases get_player_item c.damage_in_players row.d0 <;>
        cases get_player_item c.heals_out_players row.d0 <;>
        exact ⟨rfl, rfl⟩

/-- Claim C9: after Pass 1 on a fresh record, and after Pass 2 on any record
whose players have aligned damage/time series, every retained player has
`graphTime`, `damageGraphData` and `dpsGraphData` of equal length. -/
theorem graph_lengths_aligned :
    (∀ (c : Combat) (intervals : List (String × ℕ × ℕ)) (k : String)
        (p : OverviewTableRow),
      c.players = [] → (k, p) ∈ (create_overview c intervals).players →
      p.graph_time.length = p.DMG_graph_data.length
        ∧ p.DPS_graph_data.length = p.DMG_graph_data.length)
    ∧ (∀ (buildTable : List (String × String)) (c : Combat) (k : String)
        (p : OverviewTableRow),
      (∀ (k0 : String) (p0 : OverviewTableRow), (k0, p0) ∈ c.players →
        p0.graph_time.length = p0.DMG_graph_data.length) →
      (k, p) ∈ (analyze_players buildTable c).players →
      p.graph_time.length = p.DMG_graph_data.length
        ∧ p.DPS_graph_data.length = p.DMG_graph_data.length) := by
  constructor
  · intro c intervals k p hempty hmem
    simp only [create_overview, List.mem_map] at hmem
    obtain ⟨kp, hkp, heq⟩ := hmem
    injection heq with h1 h2
    subst h2
    rcases overviewFold_mem_val c intervals c.damage_out_players
      (c.players, 0, 0, 0, 0) kp.1 kp.2 (by rw [Prod.mk.eta]; exact hkp)
      with h | ⟨row, hrow⟩
    · rw [hempty] at h
      cases h
    · rw [hrow]
      exact buildOverviewRow_lengths c intervals row
  · intro bt c k p hyp hmem
    simp only [analyze_players, List.mem_map] at hmem
    obtain ⟨kp, hkp, heq⟩ := hmem
    injection heq with h1 h2
    subst h2
    have hq : kp.2.graph_time.length = kp.2.DMG_graph_data.length := by
      have hmem2 : kp ∈ c.players := (List.mem_filter.mp hkp).1
      exact hyp kp.1 kp.2 (by rw [Prod.mk.eta]; exact hmem2)
    constructor
    · simp only [analyzeOne, List.length_map]
      exact hq
    · simp only [analyzeOne]
      rw [List.length_zipWith, cumsum_length, List.length_map, hq, min_self]

def rowW9 : Row := { d0 := ("A", "H"), d19 := 1 }

def combatW9 : Combat :=
  { damage_out_players := [rowW9], overview_graphs := [("H", [2, 4])] }

def intervalsW9 : List (String × ℕ × ℕ) := [("H", (0, 1))]

def pW9 : OverviewTableRow :=
  ((create_overview combatW9 intervalsW9).players.headD
    ("", { name := "", handle := "" })).2

/-- Claim C9 witness: the concrete player produced by Pass 1 on a fresh
record has its three graph sequences of equal length. -/
theorem graph_lengths_aligned_witness :
    pW9.graph_time.length = pW9.DMG_graph_data.length
    ∧ pW9.DPS_graph_data.length = pW9.DMG_graph_data.length := by
  have hmem : ("AH", pW9) ∈ (create_overview combatW9 intervalsW9).players := by
    rw [show (create_overview combatW9 intervalsW9).players = [("AH", pW9)]
      from rfl]
    exact List.mem_singleton.mpr rfl
  exact graph_lengths_aligned.1 combatW9 intervalsW9 "AH" pW9 rfl hmem

/-- The value compared against a combat record in `__gt__`: either another
combat record or a value of any other type. -/
inductive PyOperand where
  | combat (c : Combat)
  | nonCombat

/-- `Combat.__gt__` (`combat.py` lines 491-508) with `date_time = end_time`
(line 478).  A non-`Combat` operand raises `TypeError`.  The first
`isinstance` conjunction tests `self.date_time` twice (lines 497-499), so
when `self`'s end time is temporal the method immediately evaluates
`self.date_time > other.date_time`, which raises `TypeError` when `other`'s
end time is `None`; when `self`'s end time is non-temporal every branch
condition is false and the method falls through, returning Python `None`
(modelled `Except.ok none`). -/
def combat_gt (self : Combat) (other : PyOperand) : Except String (Option Bool) :=
  match other with
  | PyOperand.nonCombat => Except.error "TypeError"
  | PyOperand.combat o =>
      match self.end_time with
      | some t =>
          match o.end_time with
          | some u => Except.ok (some (decide (u < t)))
          | none => Except.error "TypeError"
      | none => Except.ok none

/-- `extract_bytes` (`iofunc.py` lines 14-33): both paths must be absolute
(`AttributeError` otherwise); the copy seeks to `start_pos` and reads
`end_pos - start_pos` bytes, modelled as the slice written to the target.
`os.path.isabs` is external and taken as a parameter. -/
def extract_bytes (isabs : String → Bool) (source_path target_path : String)
    (source_data : List ℕ) (start_pos end_pos : ℕ) : Except String (List ℕ) :=
  if isabs source_path = false then Except.error "AttributeError"
  else if isabs target_path = false then Except.error "AttributeError"
  else Except.ok ((source_data.drop start_pos).take (end_pos - start_pos))

def combatX10a : Combat := { end_time := some 0 }

def combatX10b : Combat := { }

/-- Claim C10 counterexample: ordering two combat records — no programmer
contract violated — raises when `self`'s end time is temporal and `other`'s
is `None`, contradicting both "no exception is raised for every other
input" and "not both temporal falls through": the duplicated
`isinstance(self.date_time, datetime)` test (lines 497-499) sends this case
into `self.date_time > other.date_time`, which raises `TypeError`. -/
theorem combat_gt_raises_counterexample :
    combat_gt combatX10a (PyOperand.combat combatX10b)
      = Except.error "TypeError" := rfl

/-- Claim C10 (amended): the failures of the modelled core are exactly:
comparing a combat record to a non-combat value; comparing when `self`'s end
time is temporal and `other`'s is not; and a non-absolute source or target
path in `extract_bytes`.  When `self`'s end time is non-temporal the
comparison falls through and yields no defined ordering regardless of
`other`'s end time. -/
theorem failure_conditions :
    (∀ self : Combat,
      combat_gt self PyOperand.nonCombat = Except.error "TypeError")
    ∧ (∀ self o : Combat,
      (∃ e, combat_gt self (PyOperand.combat o) = Except.error e)
        ↔ (self.end_time.isSome = true ∧ o.end_time.isNone = true))
    ∧ (∀ self o : Combat, self.end_time = none →
      combat_gt self (PyOperand.combat o) = Except.ok none)
    ∧ (∀ (isabs : String → Bool) (sp tp : String) (data : List ℕ) (a b : ℕ),
      (∃ e, extract_bytes isabs sp tp data a b = Except.error e)
        ↔ (isabs sp = false ∨ isabs tp = false)) := by
  refine ⟨fun self => rfl, ?_, ?_, ?_⟩
  · intro self o
    cases hs : self.end_time with
    | none =>
        simp only [combat_gt, hs]
        constructor
        · rintro ⟨e, he⟩; cases he
        · rintro ⟨h1, h2⟩; simp at h1
    | some t =>
        cases ho : o.end_time with
        | none =>
            simp only [combat_gt, hs, ho]
            constructor
            · intro _; exact ⟨rfl, rfl⟩
            · intro _; exact ⟨"TypeError", rfl⟩
        | some u =>
            simp only [combat_gt, hs, ho]
            constructor
            · rintro ⟨e, he⟩; cases he
            · rintro ⟨h1, h2⟩; simp at h2
  · intro self o hs
    simp only [combat_gt, hs]
  · intro isabs sp tp data a b
    by_cases h1 : isabs sp = false
    · simp only [extract_bytes, if_pos h1]
      exact ⟨fun _ => Or.inl h1, fun _ => ⟨"AttributeError", rfl⟩⟩
    · by_cases h2 : isabs tp = false
      · simp only [extract_bytes, if_neg h1, if_pos h2]
        exact ⟨fun _ => Or.inr h2, fun _ => ⟨"AttributeError", rfl⟩⟩
      · simp only [extract_bytes, if_neg h1, if_neg h2]
        constructor
        · rintro ⟨e, he⟩; cases he
        · rintro (h | h)
          · exact absurd h h1
          · exact absurd h h2

def combatW10 : Combat := { }

def combatW10b : Combat := { end_time := some 3 }

/-- Claim C10 witness: with a non-temporal `self` end time the comparison
falls through to no defined ordering, and `extract_bytes` on a concrete
non-absolute source path fails. -/
theorem failure_conditions_witness :
    combat_gt combatW10 (PyOperand.combat combatW10b) = Except.ok none
    ∧ ∃ e, extract_bytes (fun s => decide (s = "/tmp/out.log")) "rel.log"
        "/tmp/out.log" [1, 2, 3] 0 2 = Except.error e := by
  constructor
  · exact failure_conditions.2.2.1 combatW10 combatW10b rfl
  · exact (failure_conditions.2.2.2 (fun s => decide (s = "/tmp/out.log"))
      "rel.log" "/tmp/out.log" [1, 2, 3] 0 2).mpr (Or.inl (by decide))
